import Mathlib

/-!
Verification development for the vapabi derive crate (src/derive/src/lib.rs).

The derive crate walks a parsed `Contract` and, for each member, emits Rust
declaration fragments: native types (`rust_type`), call-site generic bounds
(`template_param_type`), encode expressions (`to_token`), decode expressions
(`from_token`), sanitized identifiers (`rust_variable`, `input_names`) and
aggregated output types (`get_output_kinds`).

The embedding has two layers:
* a syntactic layer: each generator is modelled as a function producing the
  emitted token stream, represented as the list of its lexical tokens, exactly
  as the corresponding `quote!` invocation in the source produces it;
* a semantic layer: the runtime behaviour of the emitted encode and decode
  expressions is modelled as total functions over a universe of native values
  and wire-format tokens (`to_token`, `from_token` below), with decode
  faults (`expect` / `copy_from_slice` panics) represented as `Option.none`.
-/

namespace VapabiDerive

/-- The recursive parameter-type model of the vapabi crate, as matched by every
generator in src/derive/src/lib.rs (arms in source order of `to_syntax_string`). -/
inductive ParamType where
  | address
  | bytes
  | int (w : Nat)
  | uint (w : Nat)
  | bool
  | string
  | array (elem : ParamType)
  | fixedBytes (n : Nat)
  | fixedArray (elem : ParamType) (n : Nat)
deriving DecidableEq

/-- A parameter: declared name (possibly empty) and its kind. -/
structure Param where
  name : String
  kind : ParamType
deriving DecidableEq

/-- An emitted token stream, modelled as the list of its lexical tokens. -/
abbrev TokStream := List String

/-- Interpolating a `usize` value with `quote!` emits a suffixed literal
such as `3usize`. -/
def usizeLit (n : Nat) : String := toString n ++ "usize"

/-- Embedding of `rust_type` (lib.rs lines 120-139): the native type emitted
for a parameter kind.  Note the source writes the FixedArray arm as
`quote! { [#t, #size] }`, with a comma. -/
def rust_type : ParamType → TokStream
  | ParamType.address => ["vapabi", "::", "Address"]
  | ParamType.bytes => ["vapabi", "::", "Bytes"]
  | ParamType.fixedBytes 32 => ["vapabi", "::", "Hash"]
  | ParamType.fixedBytes size => ["[", "u8", ";", usizeLit size, "]"]
  | ParamType.int _ => ["vapabi", "::", "Int"]
  | ParamType.uint _ => ["vapabi", "::", "Uint"]
  | ParamType.bool => ["bool"]
  | ParamType.string => ["String"]
  | ParamType.array kind => ["Vec", "<"] ++ rust_type kind ++ [">"]
  | ParamType.fixedArray kind size => ["["] ++ rust_type kind ++ [",", usizeLit size, "]"]

/-- Embedding of `template_param_type` (lib.rs lines 141-166): the generic
bound emitted for the call-site slot of parameter `index`. -/
def template_param_type (input : ParamType) (index : Nat) : TokStream :=
  let t_ident := "T" ++ toString index
  let u_ident := "U" ++ toString index
  match input with
  | ParamType.address => [t_ident, ":", "Into", "<", "vapabi", "::", "Address", ">"]
  | ParamType.bytes => [t_ident, ":", "Into", "<", "vapabi", "::", "Bytes", ">"]
  | ParamType.fixedBytes 32 => [t_ident, ":", "Into", "<", "vapabi", "::", "Hash", ">"]
  | ParamType.fixedBytes size =>
      [t_ident, ":", "Into", "<", "[", "u8", ";", usizeLit size, "]", ">"]
  | ParamType.int _ => [t_ident, ":", "Into", "<", "vapabi", "::", "Int", ">"]
  | ParamType.uint _ => [t_ident, ":", "Into", "<", "vapabi", "::", "Uint", ">"]
  | ParamType.bool => [t_ident, ":", "Into", "<", "bool", ">"]
  | ParamType.string => [t_ident, ":", "Into", "<", "String", ">"]
  | ParamType.array kind =>
      [t_ident, ":", "IntoIterator", "<", "Item", "=", u_ident, ">", ",",
       u_ident, ":", "Into", "<"] ++ rust_type kind ++ [">"]
  | ParamType.fixedArray kind size =>
      [t_ident, ":", "Into", "<", "[", u_ident, ";", usizeLit size, "]", ">", ",",
       u_ident, ":", "Into", "<"] ++ rust_type kind ++ [">"]

/-- The `quote!` repetition `#(#outs),*`: splice the fragments separated by
commas. -/
def sepByComma : List TokStream → TokStream
  | [] => []
  | [x] => x
  | x :: xs => x ++ [","] ++ sepByComma xs

/-- Embedding of `get_output_kinds` (lib.rs lines 279-294): the aggregated
output type, by match on the length of the output list. -/
def get_output_kinds (outputs : List Param) : TokStream :=
  match outputs with
  | [] => ["(", ")"]
  | [o] => rust_type o.kind
  | outs => ["("] ++ sepByComma (outs.map fun param => rust_type param.kind) ++ [")"]

/-- Word-splitting mode of the transform loop of the external heck crate. -/
inductive WordMode where
  | boundary
  | lowercase
  | uppercase
deriving DecidableEq

/-- Modelled from the external heck crate (the `SnakeCase` trait used by
`rust_variable`): split a character run into words.  Boundaries are
non-alphanumeric separators (dropped), a lower-or-digit to upper transition
(the word ends after the current character), and the last upper of an
uppercase run followed by a lowercase letter (the word ends before the
current character). -/
def heckSplit : WordMode → List Char → List Char → List (List Char)
  | _, acc, [] => if acc = [] then [] else [acc.reverse]
  | mode, acc, c :: rest =>
    if c.isAlphanum = false then
      (if acc = [] then [] else [acc.reverse]) ++ heckSplit WordMode.boundary [] rest
    else
      let nextMode := if c.isLower then WordMode.lowercase
        else if c.isUpper then WordMode.uppercase else mode
      match rest with
      | [] => [(c :: acc).reverse]
      | nc :: _ =>
        if nc.isAlphanum = false then
          heckSplit nextMode (c :: acc) rest
        else if nextMode = WordMode.lowercase ∧ nc.isUpper then
          ((c :: acc).reverse) :: heckSplit WordMode.boundary [] rest
        else if mode = WordMode.uppercase ∧ c.isUpper ∧ nc.isLower then
          (if acc = [] then [] else [acc.reverse]) ++ heckSplit WordMode.boundary [c] rest
        else
          heckSplit nextMode (c :: acc) rest

/-- Modelled from the external heck crate: `to_snake_case` lowercases each
word and joins the words with underscores. -/
def to_snake_case (s : String) : String :=
  String.intercalate "_"
    ((heckSplit WordMode.boundary [] s.data).map (fun w => String.mk (w.map Char.toLower)))

/-- Embedding of `rust_variable` (lib.rs lines 296-305): the keyword check
matches the literal declared name before any case conversion, and every
other name is snake-cased via heck. -/
def rust_variable (name : String) : String :=
  match name with
  | "self" => "_self"
  | other => to_snake_case other

/-- Embedding of `input_names` (lib.rs lines 261-271): empty names become
positional `param<index>` identifiers, other names go through
`rust_variable`. -/
def input_names (inputs : List Param) : List String :=
  inputs.enum.map (fun x =>
    if x.2.name = "" then "param" ++ toString x.1 else rust_variable x.2.name)

/-- The universe of native runtime values the generated code manipulates.
`fixedBytes` covers both `vapabi::Hash` and plain `[u8; n]` byte arrays (they
carry the same observable byte content); `vec` is a `Vec`, `arr` a fixed-size
array, `optVal` an `Option`-wrapped element as produced by a bare
`Iterator::next()` call. -/
inductive Value where
  | address (a : Nat)
  | bytes (b : List Nat)
  | fixedBytes (b : List Nat)
  | int (i : Int)
  | uint (u : Nat)
  | bool (b : Bool)
  | str (s : String)
  | vec (vs : List Value)
  | arr (vs : List Value)
  | optVal (v : Option Value)

/-- The wire-format tagged-union token type of the vapabi crate (spec section 6):
one variant per ParamType kind. -/
inductive Token where
  | address (a : Nat)
  | bytes (b : List Nat)
  | fixedBytes (b : List Nat)
  | int (i : Int)
  | uint (u : Nat)
  | bool (b : Bool)
  | str (s : String)
  | array (ts : List Token)
  | fixedArray (ts : List Token)

/-- Modelled from the spec: the externally-defined extraction operation
`Token::to_address` of the vapabi crate (not under src/), returning the typed
payload or a decode failure. -/
def Token.to_address : Token → Option Nat
  | Token.address a => some a
  | _ => none

/-- Modelled from the spec: the vapabi extraction operation `Token::to_bytes`. -/
def Token.to_bytes : Token → Option (List Nat)
  | Token.bytes b => some b
  | _ => none

/-- Modelled from the spec: the vapabi extraction operation
`Token::to_fixed_bytes`. -/
def Token.to_fixed_bytes : Token → Option (List Nat)
  | Token.fixedBytes b => some b
  | _ => none

/-- Modelled from the spec: the vapabi extraction operation `Token::to_int`. -/
def Token.to_int : Token → Option Int
  | Token.int i => some i
  | _ => none

/-- Modelled from the spec: the vapabi extraction operation `Token::to_uint`. -/
def Token.to_uint : Token → Option Nat
  | Token.uint u => some u
  | _ => none

/-- Modelled from the spec: the vapabi extraction operation `Token::to_bool`. -/
def Token.to_bool : Token → Option Bool
  | Token.bool b => some b
  | _ => none

/-- Modelled from the spec: the vapabi extraction operation `Token::to_string`. -/
def Token.to_string : Token → Option String
  | Token.str s => some s
  | _ => none

/-- Modelled from the spec: the vapabi extraction operation `Token::to_array`.
Section 6 lists it as the single extraction operation serving both array
kinds, so it yields the inner token sequence of either array-token variant. -/
def Token.to_array : Token → Option (List Token)
  | Token.array ts => some ts
  | Token.fixedArray ts => some ts
  | _ => none

/-- Whether a value is representable by the native type (`rust_type`) of a
parameter kind: the well-typedness relation between `Value` and `ParamType`. -/
def representable : ParamType → Value → Bool
  | ParamType.address, Value.address _ => true
  | ParamType.bytes, Value.bytes _ => true
  | ParamType.fixedBytes n, Value.fixedBytes b => b.length == n
  | ParamType.int _, Value.int _ => true
  | ParamType.uint _, Value.uint _ => true
  | ParamType.bool, Value.bool _ => true
  | ParamType.string, Value.str _ => true
  | ParamType.array k, Value.vec vs => vs.all (fun v => representable k v)
  | ParamType.fixedArray k n, Value.arr vs =>
      vs.length == n && vs.all (fun v => representable k v)
  | _, _ => false

/-- Evaluation semantics of the encode expression emitted by `to_token`
(lib.rs lines 176-208) when applied to a native value.  Each leaf arm wraps
the value in the token variant the source constructs; the FixedBytes arm
models `#name.as_ref().to_vec()`; the array arms model the
`into_iter().map(..).collect()` loop wrapped in `Token::Array` resp.
`Token::FixedArray`.  An ill-typed value/kind pair cannot arise in the
statically-typed generated code; it is mapped to a junk token and excluded
by `representable` hypotheses. -/
def to_token (name : Value) (kind : ParamType) : Token :=
  match kind, name with
  | ParamType.address, Value.address a => Token.address a
  | ParamType.bytes, Value.bytes b => Token.bytes b
  | ParamType.fixedBytes _, Value.fixedBytes b => Token.fixedBytes b
  | ParamType.int _, Value.int i => Token.int i
  | ParamType.uint _, Value.uint u => Token.uint u
  | ParamType.bool, Value.bool b => Token.bool b
  | ParamType.string, Value.str s => Token.str s
  | ParamType.array kind, Value.vec vs =>
      Token.array (vs.map (fun inner => to_token inner kind))
  | ParamType.fixedArray kind _, Value.arr vs =>
      Token.fixedArray (vs.map (fun inner => to_token inner kind))
  | _, _ => Token.array []

/-- The element-wise decode of the Array arm of `from_token`: map every inner
token through the element decode and collect; an inner decode fault
(an `expect` panic) faults the whole expression. -/
def mapDecode (f : Token → Option Value) : List Token → Option (List Value)
  | [] => some []
  | t :: ts =>
    match f t with
    | none => none
    | some v => (mapDecode f ts).map (fun vs => v :: vs)

/-- The FixedArray arm of `from_token` materializes the result by evaluating
`iter.next()` exactly `n` times against the lazily-mapped decoded sequence:
a pull past the end yields a bare `none` element (no fault), while a fault
inside the decode of a pulled element propagates. -/
def pullN : List (Option Value) → Nat → Option (List (Option Value))
  | _, 0 => some []
  | [], k + 1 => (pullN [] k).map (fun l => none :: l)
  | d :: ds, k + 1 =>
    match d with
    | none => none
    | some v => (pullN ds k).map (fun l => some v :: l)

/-- Evaluation semantics of the decode expression emitted by `from_token`
(lib.rs lines 210-259) when applied to a token.  `none` models a panic of a
generated `.expect(INTERNAL_ERR)` or of `copy_from_slice` on a length
mismatch.  The FixedBytes arms copy the extracted bytes into a fresh fixed
buffer; the Array arm maps every inner token through the element decode; the
FixedArray arm builds the array from `size` bare `iter.next()` pulls
(source line 249: `vec![quote! { iter.next() }; size]`), each yielding an
`Option`-wrapped element. -/
def from_token (kind : ParamType) (token : Token) : Option Value :=
  match kind with
  | ParamType.address => (Token.to_address token).map Value.address
  | ParamType.bytes => (Token.to_bytes token).map Value.bytes
  | ParamType.fixedBytes 32 =>
    match Token.to_fixed_bytes token with
    | none => none
    | some v => if v.length = 32 then some (Value.fixedBytes v) else none
  | ParamType.fixedBytes size =>
    match Token.to_fixed_bytes token with
    | none => none
    | some v => if v.length = size then some (Value.fixedBytes v) else none
  | ParamType.int _ => (Token.to_int token).map Value.int
  | ParamType.uint _ => (Token.to_uint token).map Value.uint
  | ParamType.bool => (Token.to_bool token).map Value.bool
  | ParamType.string => (Token.to_string token).map Value.str
  | ParamType.array kind =>
    match Token.to_array token with
    | none => none
    | some ts => (mapDecode (fun t => from_token kind t) ts).map Value.vec
  | ParamType.fixedArray kind size =>
    match Token.to_array token with
    | none => none
    | some ts =>
      (pullN (ts.map (fun t => from_token kind t)) size).map
        (fun l => Value.arr (l.map Value.optVal))

/-- The tags of the wire-format tagged union. -/
inductive Variant where
  | address
  | bytes
  | fixedBytes
  | int
  | uint
  | bool
  | str
  | array
  | fixedArray
deriving DecidableEq

/-- The runtime tag of a token. -/
def Token.variant : Token → Variant
  | Token.address _ => Variant.address
  | Token.bytes _ => Variant.bytes
  | Token.fixedBytes _ => Variant.fixedBytes
  | Token.int _ => Variant.int
  | Token.uint _ => Variant.uint
  | Token.bool _ => Variant.bool
  | Token.str _ => Variant.str
  | Token.array _ => Variant.array
  | Token.fixedArray _ => Variant.fixedArray

/-- The token variant implied by a parameter kind: the constructor the encode
expression emitted by `to_token` wraps the value in (lib.rs lines 176-208). -/
def impliedVariant : ParamType → Variant
  | ParamType.address => Variant.address
  | ParamType.bytes => Variant.bytes
  | ParamType.fixedBytes _ => Variant.fixedBytes
  | ParamType.int _ => Variant.int
  | ParamType.uint _ => Variant.uint
  | ParamType.bool => Variant.bool
  | ParamType.string => Variant.str
  | ParamType.array _ => Variant.array
  | ParamType.fixedArray _ _ => Variant.fixedArray

/-- The top-level extraction operation invoked by the decode expression
emitted by `from_token` for each kind (lib.rs lines 210-259), evaluated on a
token: `true` iff that extraction succeeds. -/
def decode_extract_accepts (kind : ParamType) (token : Token) : Bool :=
  match kind with
  | ParamType.address => (Token.to_address token).isSome
  | ParamType.bytes => (Token.to_bytes token).isSome
  | ParamType.fixedBytes _ => (Token.to_fixed_bytes token).isSome
  | ParamType.int _ => (Token.to_int token).isSome
  | ParamType.uint _ => (Token.to_uint token).isSome
  | ParamType.bool => (Token.to_bool token).isSome
  | ParamType.string => (Token.to_string token).isSome
  | ParamType.array _ => (Token.to_array token).isSome
  | ParamType.fixedArray _ _ => (Token.to_array token).isSome

/-- Numeric value of a decimal digit character. -/
def digitVal (c : Char) : Nat := c.toNat - 48

/-- Parse back a decimal digit string. -/
def decValue (cs : List Char) : Nat := cs.foldl (fun a c => 10 * a + digitVal c) 0

theorem digitVal_digitChar : ∀ k, k < 10 → digitVal (Nat.digitChar k) = k := by decide

theorem foldl_toDigitsCore (fuel : Nat) :
    ∀ (n : Nat) (ds : List Char), n < 10 ^ fuel →
      List.foldl (fun a c => 10 * a + digitVal c) 0 (Nat.toDigitsCore 10 fuel n ds) =
        List.foldl (fun a c => 10 * a + digitVal c) n ds := by
  induction fuel with
  | zero =>
    intro n ds h
    have hn : n = 0 := by simpa using Nat.lt_one_iff.mp (by simpa using h)
    subst hn
    rfl
  | succ fuel ih =>
    intro n ds h
    by_cases hz : n / 10 = 0
    · have hn : n < 10 := by omega
      have : Nat.toDigitsCore 10 (fuel + 1) n ds = Nat.digitChar (n % 10) :: ds := by
        simp [Nat.toDigitsCore, hz]
      rw [this]
      have hmod : n % 10 = n := Nat.mod_eq_of_lt hn
      simp [List.foldl, hmod, digitVal_digitChar n hn]
    · have : Nat.toDigitsCore 10 (fuel + 1) n ds =
          Nat.toDigitsCore 10 fuel (n / 10) (Nat.digitChar (n % 10) :: ds) := by
        simp [Nat.toDigitsCore, hz]
      rw [this]
      have hlt : n / 10 < 10 ^ fuel := by
        have h10 : n < 10 * 10 ^ fuel := by
          calc n < 10 ^ (fuel + 1) := h
            _ = 10 * 10 ^ fuel := by rw [Nat.pow_succ']
        exact Nat.div_lt_of_lt_mul h10
      rw [ih (n / 10) (Nat.digitChar (n % 10) :: ds) hlt]
      have hmlt : n % 10 < 10 := Nat.mod_lt _ (by omega)
      simp [List.foldl, digitVal_digitChar (n % 10) hmlt]
      congr 1
      omega

theorem decValue_toDigits (n : Nat) : decValue (Nat.toDigits 10 n) = n := by
  have hfuel : n < 10 ^ (n + 1) := by
    calc n < 10 ^ n := Nat.lt_pow_self (by omega) n
      _ ≤ 10 ^ (n + 1) := Nat.pow_le_pow_right (by omega) (Nat.le_succ n)
  unfold Nat.toDigits decValue
  rw [foldl_toDigitsCore (n + 1) n [] hfuel]
  rfl

theorem natToString_inj {m n : Nat} (h : toString m = toString n) : m = n := by
  have hrepr : Nat.repr m = Nat.repr n := h
  unfold Nat.repr at hrepr
  have hdig : Nat.toDigits 10 m = Nat.toDigits 10 n := by
    have := congrArg String.data hrepr
    simpa [List.asString] using this
  have := congrArg decValue hdig
  rwa [decValue_toDigits, decValue_toDigits] at this

theorem param_ident_inj {i j : Nat} (h : "param" ++ toString i = "param" ++ toString j) :
    i = j := by
  apply natToString_inj
  have hdata := congrArg String.data h
  rw [String.data_append, String.data_append] at hdata
  have := List.append_cancel_left hdata
  exact congrArg String.mk this

theorem input_names_getElem (inputs : List Param) (i : Nat) :
    (input_names inputs)[i]? = inputs[i]?.map (fun param =>
      if param.name = "" then "param" ++ toString i else rust_variable param.name) := by
  simp [input_names, List.getElem?_map, List.getElem?_enum, Option.map_map]
  rfl

/-- Modelled from the spec: the well-formed Rust fixed-size-array type of an
element type and a length is written with a semicolon, `[T; N]`. -/
def fixed_size_array_type (t : TokStream) (n : Nat) : TokStream :=
  ["["] ++ t ++ [";", usizeLit n, "]"]

/-- Modelled from the spec: the claimed recursively-nesting call-site bound,
in which every array level contributes an iterable-of constraint over a fresh
inner slot and only the innermost non-array kind contributes a convert-into
constraint.  Successive inner slot names use successive letters U, V, W, ...
suffixed with the parameter index. -/
def nested_bound (slot : String) (depth : Nat) (index : Nat) : ParamType → TokStream
  | ParamType.array kind =>
      let inner := String.mk [Char.ofNat (85 + depth)] ++ toString index
      [slot, ":", "IntoIterator", "<", "Item", "=", inner, ">", ","] ++
        nested_bound inner (depth + 1) index kind
  | kind => [slot, ":", "Into", "<"] ++ rust_type kind ++ [">"]

/-- C1: the round-trip invariant from_token(to_token(v, T), T) = v fails on
the code for any T containing FixedArray, already at depth 1: for
T = FixedArray(Bool, 1) and v = [true], the decode expression generated from
`vec![quote! { iter.next() }; size]` (lib.rs line 249) rebuilds the array
from bare `iter.next()` pulls, so the decoded value is an array of
Option-wrapped elements, not v. -/
theorem c1_fixed_array_roundtrip_fails :
    from_token (ParamType.fixedArray ParamType.bool 1)
        (to_token (Value.arr [Value.bool true]) (ParamType.fixedArray ParamType.bool 1)) =
      some (Value.arr [Value.optVal (some (Value.bool true))]) ∧
    Value.arr [Value.optVal (some (Value.bool true))] ≠ Value.arr [Value.bool true] :=
  ⟨rfl, by simp⟩

/-- C2: the native type the code emits for FixedArray(Bool, 3) is
`[bool, 3usize]`, with a comma (lib.rs line 136: `quote! { [#t, #size] }`),
which is not the well-formed fixed-size-array type `[bool; 3usize]` the
claim describes. -/
theorem c2_fixed_array_native_type_malformed :
    rust_type (ParamType.fixedArray ParamType.bool 3) = ["[", "bool", ",", "3usize", "]"] ∧
    rust_type (ParamType.fixedArray ParamType.bool 3) ≠
      fixed_size_array_type (rust_type ParamType.bool) 3 :=
  ⟨by decide, by decide⟩

/-- C3: decoding FixedArray(Bool, 3) from an array token carrying only 2
boolean tokens does not fault: the generated expression succeeds and returns
an array padded with a bare `None` element, because each slot is a bare
`iter.next()` pull (lib.rs line 249). -/
theorem c3_short_fixed_array_silently_padded :
    from_token (ParamType.fixedArray ParamType.bool 3)
        (Token.fixedArray [Token.bool true, Token.bool false]) =
      some (Value.arr [Value.optVal (some (Value.bool true)),
        Value.optVal (some (Value.bool false)), Value.optVal none]) ∧
    (from_token (ParamType.fixedArray ParamType.bool 3)
        (Token.fixedArray [Token.bool true, Token.bool false])).isSome = true :=
  ⟨rfl, rfl⟩

/-- C5: the sanitizer checks the literal declared name against the keyword
before case conversion (lib.rs lines 301-304), so the declared name "Self"
is snake-cased to exactly the reserved keyword `self` and is not escaped;
only the literal name "self" is escaped to `_self`. -/
theorem c5_upper_self_unescaped :
    rust_variable "Self" = "self" ∧ rust_variable "self" = "_self" :=
  ⟨by decide, by decide⟩

/-- C10: input_names performs no cross-parameter collision detection for
non-empty names: the distinct declared names "foo" and "Foo" in one
parameter list both sanitize to the identifier "foo". -/
theorem c10_snake_case_collision :
    ("foo" : String) ≠ "Foo" ∧
    input_names [Param.mk "foo" ParamType.bool, Param.mk "Foo" ParamType.bool] =
      ["foo", "foo"] :=
  ⟨by decide, by decide⟩

/-- C4 counterexample: for Array(Array(Uint(8))) the emitted call-site bound
does not nest the iterable-of/converts-into structure recursively: it differs
from the recursively-nesting bound the claim describes, and it contains the
iterable constraint exactly once — the inner slot U0 is constrained
`Into<Vec<vapabi::Uint>>` directly rather than as an iterable of
convertibles. -/
theorem c4_counterexample :
    template_param_type (ParamType.array (ParamType.array (ParamType.uint 8))) 0 ≠
      nested_bound "T0" 0 0 (ParamType.array (ParamType.array (ParamType.uint 8))) ∧
    List.count "IntoIterator"
      (template_param_type (ParamType.array (ParamType.array (ParamType.uint 8))) 0) = 1 :=
  ⟨by decide, by decide⟩

/-- Encoding a Vec of native Uint values at Array(Uint(8)) yields a flat
array-token of uint tokens. -/
theorem to_token_uint_vec (vs : List Nat) :
    to_token (Value.vec (vs.map Value.uint)) (ParamType.array (ParamType.uint 8)) =
      Token.array (vs.map Token.uint) := by
  simp [to_token, List.map_map, Function.comp]

/-- C4 (amended): for Array(Array(Uint(8))) the emitted bound introduces a
single iterable level — `T0: IntoIterator<Item = U0>` with
`U0: Into<Vec<vapabi::Uint>>`, the inner level being a direct conversion into
the native inner sequence type rather than a nested iterable-of-convertibles
bound — and the emitted encode expression does produce a two-level nested
array-token. -/
theorem c4_single_iterable_bound_nested_encode :
    template_param_type (ParamType.array (ParamType.array (ParamType.uint 8))) 0 =
      ["T0", ":", "IntoIterator", "<", "Item", "=", "U0", ">", ",",
       "U0", ":", "Into", "<", "Vec", "<", "vapabi", "::", "Uint", ">", ">"] ∧
    ∀ vss : List (List Nat),
      to_token (Value.vec (vss.map (fun vs => Value.vec (vs.map Value.uint))))
        (ParamType.array (ParamType.array (ParamType.uint 8))) =
      Token.array (vss.map (fun vs => Token.array (vs.map Token.uint))) := by
  refine ⟨by decide, fun vss => ?_⟩
  simp [to_token, List.map_map, Function.comp, to_token_uint_vec]

/-- C6: for every parameter kind and every representable value, the emitted
encode expression constructs the token variant implied by the kind, and the
top-level extraction operation invoked by the emitted decode expression
accepts the token so constructed (in particular, the FixedArray encode
constructs a fixed-array token and the `to_array`
extraction of the FixedArray decode accepts it). -/
theorem c6_variant_consistency (kind : ParamType) (v : Value)
    (h : representable kind v = true) :
    Token.variant (to_token v kind) = impliedVariant kind ∧
    decode_extract_accepts kind (to_token v kind) = true := by
  cases kind <;> cases v <;>
    simp_all [representable, to_token, Token.variant, impliedVariant,
      decode_extract_accepts, Token.to_address, Token.to_bytes, Token.to_fixed_bytes,
      Token.to_int, Token.to_uint, Token.to_bool, Token.to_string, Token.to_array]

/-- Witness for C6 at kind FixedArray(Bool, 2) and value [true, false]. -/
theorem c6_variant_consistency_witness :
    representable (ParamType.fixedArray ParamType.bool 2)
        (Value.arr [Value.bool true, Value.bool false]) = true ∧
    (Token.variant (to_token (Value.arr [Value.bool true, Value.bool false])
        (ParamType.fixedArray ParamType.bool 2)) =
          impliedVariant (ParamType.fixedArray ParamType.bool 2) ∧
      decode_extract_accepts (ParamType.fixedArray ParamType.bool 2)
        (to_token (Value.arr [Value.bool true, Value.bool false])
          (ParamType.fixedArray ParamType.bool 2)) = true) :=
  ⟨rfl, c6_variant_consistency (ParamType.fixedArray ParamType.bool 2)
    (Value.arr [Value.bool true, Value.bool false]) rfl⟩

/-- C7: the aggregated output type is the unit type for an empty output list,
the native type of the single output for a one-element list (Uint(256) alone
yields the wide-unsigned type), and the ordered tuple of the native types of the
outputs, in declaration order, for two or more outputs ([Bool, String] yields
`(bool, String)`). -/
theorem c7_output_aggregation :
    get_output_kinds [] = ["(", ")"] ∧
    (∀ o : Param, get_output_kinds [o] = rust_type o.kind) ∧
    (∀ (p q : Param) (rest : List Param),
      get_output_kinds (p :: q :: rest) =
        ["("] ++ sepByComma ((p :: q :: rest).map fun r => rust_type r.kind) ++ [")"]) ∧
    get_output_kinds [Param.mk "" (ParamType.uint 256)] = ["vapabi", "::", "Uint"] ∧
    get_output_kinds [Param.mk "" ParamType.bool, Param.mk "" ParamType.string] =
      ["(", "bool", ",", "String", ")"] :=
  ⟨rfl, fun _ => rfl, fun _ _ _ => rfl, rfl, by decide⟩

/-- C8: the leaf native-type mapping sends FixedBytes(32) to the distinguished
hash type, FixedBytes(n) for n different from 32 to the plain byte array
`[u8; n]`, and Int(w) / Uint(w) to the single wide signed resp. unsigned
types with the width w not reflected in the native type. -/
theorem c8_leaf_type_mapping (n w : Nat) (h : n ≠ 32) :
    rust_type (ParamType.fixedBytes 32) = ["vapabi", "::", "Hash"] ∧
    rust_type (ParamType.fixedBytes n) = ["[", "u8", ";", usizeLit n, "]"] ∧
    rust_type (ParamType.int w) = ["vapabi", "::", "Int"] ∧
    rust_type (ParamType.uint w) = ["vapabi", "::", "Uint"] := by
  refine ⟨rfl, ?_, rfl, rfl⟩
  rw [rust_type.eq_def]
  split
  all_goals simp_all

/-- Witness for C8 at widths 256 and fixed-bytes lengths 4. -/
theorem c8_leaf_type_mapping_witness :
    (4 : Nat) ≠ 32 ∧
    rust_type (ParamType.fixedBytes 4) = ["[", "u8", ";", usizeLit 4, "]"] :=
  ⟨by decide, (c8_leaf_type_mapping 4 256 (by decide)).2.1⟩

/-- C9: a parameter whose declared name is empty is given the positional
identifier "param" followed by its zero-based index, and two unnamed
parameters at distinct indices of the same list therefore resolve to
distinct identifiers. -/
theorem c9_positional_names (inputs : List Param) (i j : Nat) (p q : Param)
    (hip : inputs[i]? = some p) (hp : p.name = "")
    (hjq : inputs[j]? = some q) (hq : q.name = "") (hij : i ≠ j) :
    (input_names inputs)[i]? = some ("param" ++ toString i) ∧
    (input_names inputs)[i]? ≠ (input_names inputs)[j]? := by
  have e1 := input_names_getElem inputs i
  have e2 := input_names_getElem inputs j
  rw [hip] at e1
  rw [hjq] at e2
  simp [hp] at e1
  simp [hq] at e2
  refine ⟨e1, ?_⟩
  rw [e1, e2]
  intro hcontra
  exact hij (param_ident_inj (Option.some.inj hcontra))

/-- Witness for C9: in a three-parameter list with unnamed parameters at
indices 1 and 2, index 2 resolves to "param2" and differs from index 1. -/
theorem c9_positional_names_witness :
    (input_names [Param.mk "x" ParamType.bool, Param.mk "" (ParamType.uint 8),
        Param.mk "" ParamType.bool])[2]? = some ("param" ++ toString 2) ∧
    (input_names [Param.mk "x" ParamType.bool, Param.mk "" (ParamType.uint 8),
        Param.mk "" ParamType.bool])[2]? ≠
      (input_names [Param.mk "x" ParamType.bool, Param.mk "" (ParamType.uint 8),
        Param.mk "" ParamType.bool])[1]? :=
  c9_positional_names
    [Param.mk "x" ParamType.bool, Param.mk "" (ParamType.uint 8), Param.mk "" ParamType.bool]
    2 1 (Param.mk "" ParamType.bool) (Param.mk "" (ParamType.uint 8))
    rfl rfl rfl rfl (by decide)

end VapabiDerive
